import Mathlib

/-!
# Pong simulation step: embedding of `src/main.cc` and its properties

The simulation core of the program (`accelerate_paddle`, `decelerate_paddle`,
`paddle_can_move`, `handle_keypress`, `reset_game`, `perform_ball_collisions`,
`loop_game`) is embedded as pure state-passing functions.

Conventions of the embedding:

* `double` is read as an arbitrary linearly ordered field `F` (the reals for the
  statements that need trigonometry, the rationals for evaluation on concrete
  inputs); rounding is not modelled.
* `int` is read as `Int` (no overflow).
* `abs` applied to a `double` is read as the absolute value on `F`.
* The functions of the C maths library used by the program and by Eigen
  (`cos`, `sin`, `sqrt`, the constant `M_PI`) are passed as a record `Libm F`;
  statements about the reals instantiate it with `Real.cos`, `Real.sin`,
  `Real.sqrt`, `Real.pi`.
* The keyboard state read by `handle_keypress` is passed as a record `Keys`.
* Fields of `Settings` that only concern rendering (`color`, `font`) are omitted.
-/

namespace Pong

/-! ## Data model (`main.cc` lines 11-56) -/

/-- Maths-library functions the program depends on. -/
structure Libm (F : Type) where
  cos : F → F
  sin : F → F
  sqrt : F → F
  pi : F

/-- The `Settings` struct, without the rendering-only members `color` and `font`. -/
structure Settings (F : Type) where
  window_width : Int
  window_height : Int
  paddle_speed : F
  ball_speed : F
  ball_radius : F
  paddle_width : F
  paddle_height : F
  margin_v : F
  margin_h : F

/-- The `Score` struct. -/
structure Score where
  left : Int
  right : Int
deriving DecidableEq

/-- The `Paddle` struct; `position` is the top corner. -/
structure Paddle (F : Type) where
  height : F
  position : F
  velocity : F
deriving DecidableEq

/-- Stand-in for `Eigen::Vector2d`. -/
structure Vector2d (F : Type) where
  x : F
  y : F
deriving DecidableEq

/-- Stand-in for a 2x2 Eigen matrix, stored by rows. -/
structure Matrix2d (F : Type) where
  m00 : F
  m01 : F
  m10 : F
  m11 : F

/-- The `Ball` struct. -/
structure Ball (F : Type) where
  radius : F
  position : Vector2d F
  velocity : Vector2d F
deriving DecidableEq

/-- Stand-in for `std::pair<Paddle, Paddle>`: `first` is the left paddle, `second` the right. -/
structure PaddlePair (F : Type) where
  first : Paddle F
  second : Paddle F
deriving DecidableEq

/-- The `Game` struct. -/
structure Game (F : Type) where
  paddles : PaddlePair F
  ball : Ball F
  score : Score
deriving DecidableEq

/-- Keyboard state polled by `handle_keypress` through `sf::Keyboard::isKeyPressed`
for the four keys of `Keymap`. -/
structure Keys where
  LeftUp : Bool
  LeftDown : Bool
  RightUp : Bool
  RightDown : Bool
deriving DecidableEq

section Defs

variable {F : Type} [LinearOrderedField F]

/-! ## Eigen operations used by the program -/

namespace Vector2d

/-- Vector addition (`operator+`, `operator+=`). -/
def add (a b : Vector2d F) : Vector2d F := ⟨a.x + b.x, a.y + b.y⟩

/-- Vector subtraction. -/
def sub (a b : Vector2d F) : Vector2d F := ⟨a.x - b.x, a.y - b.y⟩

/-- Scaling of a vector by a scalar (`v * k` and `k * v`). -/
def scale (a : Vector2d F) (k : F) : Vector2d F := ⟨a.x * k, a.y * k⟩

/-- Inner product, Eigen's `dot`. -/
def dot (a b : Vector2d F) : F := a.x * b.x + a.y * b.y

/-- Eigen's `squaredNorm`. -/
def squaredNorm (a : Vector2d F) : F := a.x * a.x + a.y * a.y

/-- Eigen's in-place `normalize`: divide by the norm when the squared norm is positive. -/
def normalize (M : Libm F) (a : Vector2d F) : Vector2d F :=
  let z := a.squaredNorm
  if z > 0 then ⟨a.x / M.sqrt z, a.y / M.sqrt z⟩ else a

end Vector2d

/-- The matrix of `Eigen::Rotation2Dd(angle).toRotationMatrix()`. -/
def toRotationMatrix (M : Libm F) (angle : F) : Matrix2d F :=
  ⟨M.cos angle, -M.sin angle, M.sin angle, M.cos angle⟩

/-- Matrix-vector product. -/
def Matrix2d.mulVec (A : Matrix2d F) (v : Vector2d F) : Vector2d F :=
  ⟨A.m00 * v.x + A.m01 * v.y, A.m10 * v.x + A.m11 * v.y⟩

/-! ## Paddle motion (`main.cc` lines 58-88) -/

/-- Line 58: `int sign(double val) { return (0 < val) - (val < 0); }`. -/
def sign (val : F) : Int := (if 0 < val then 1 else 0) - (if val < 0 then 1 else 0)

/-- Lines 60-71. The `assert` on `direction` is not part of the returned state. -/
def accelerate_paddle (paddle : Paddle F) (direction : Int) (dt : F) (settings : Settings F) :
    Paddle F :=
  if |paddle.velocity| = settings.paddle_speed ∧ sign paddle.velocity = direction then paddle
  else
    let acceleration : F := 100
    let new_velocity : F := paddle.velocity + (direction : F) * acceleration * dt
    { paddle with
      velocity :=
        if |new_velocity| < settings.paddle_speed then new_velocity
        else settings.paddle_speed * (direction : F) }

/-- Lines 73-81. -/
def decelerate_paddle (paddle : Paddle F) (dt : F) : Paddle F :=
  if paddle.velocity = 0 then paddle
  else
    let deceleration : F := 100
    let new_velocity : F := |paddle.velocity| - deceleration * dt
    { paddle with velocity := max 0 new_velocity * ((sign paddle.velocity : Int) : F) }

/-- Lines 83-88. -/
def paddle_can_move (p : Paddle F) (direction : Int) (settings : Settings F) : Bool :=
  if p.position ≤ 0 ∧ direction = -1 then false
  else if p.position ≥ 1 - settings.paddle_height ∧ direction = 1 then false
  else true

/-- Lines 90-110, with the keyboard state as an argument. -/
def handle_keypress (keys : Keys) (game : Game F) (dt : F) (settings : Settings F) : Game F :=
  let first :=
    if keys.LeftDown then accelerate_paddle game.paddles.first 1 dt settings
    else if keys.LeftUp then accelerate_paddle game.paddles.first (-1) dt settings
    else decelerate_paddle game.paddles.first dt
  let second :=
    if keys.RightDown then accelerate_paddle game.paddles.second 1 dt settings
    else if keys.RightUp then accelerate_paddle game.paddles.second (-1) dt settings
    else decelerate_paddle game.paddles.second dt
  { game with paddles := ⟨first, second⟩ }

/-! ## Reset and collisions (`main.cc` lines 150-229) -/

/-- Lines 150-164. -/
def reset_game (settings : Settings F) (score : Score := ⟨0, 0⟩) (left_start : Bool := false) :
    Game F :=
  let offset := settings.ball_radius + settings.margin_h + settings.paddle_width
  let ball : Ball F :=
    if left_start then ⟨settings.ball_radius, ⟨0 + offset, 1 / 2⟩, ⟨settings.ball_speed, 0⟩⟩
    else ⟨settings.ball_radius, ⟨1 - offset, 1 / 2⟩, ⟨-settings.ball_speed, 0⟩⟩
  { paddles :=
      ⟨⟨settings.paddle_height, 1 / 2 - settings.paddle_height / 2, 0⟩,
       ⟨settings.paddle_height, 1 / 2 - settings.paddle_height / 2, 0⟩⟩
    ball := ball
    score := score }

/-- Assignment to `game.ball.position.y()`. -/
def Game.setBallY (game : Game F) (y : F) : Game F :=
  { game with ball := { game.ball with position := ⟨game.ball.position.x, y⟩ } }

/-- Assignment to `game.ball.position.x()`. -/
def Game.setBallX (game : Game F) (x : F) : Game F :=
  { game with ball := { game.ball with position := ⟨x, game.ball.position.y⟩ } }

/-- Assignment to `game.ball.velocity`. -/
def Game.setBallVelocity (game : Game F) (v : Vector2d F) : Game F :=
  { game with ball := { game.ball with velocity := v } }

/-- Line 190. -/
def bounce_buffer : F := 1 / 100

/-- Line 191: `5 * M_PI / 12`. -/
def max_bounce_angle (M : Libm F) : F := 5 * M.pi / 12

/-- Lines 168-188 of `perform_ball_collisions`: the top/bottom wall test and the
reflection of the velocity. -/
def wall_collision (M : Libm F) (game : Game F) : Game F :=
  let unit_normal : Vector2d F := ⟨0, 0⟩
  let need_to_wrap : Bool := false
  let st : Vector2d F × Bool × Game F :=
    if game.ball.position.y + game.ball.radius > 1 then
      (unit_normal.add ⟨0, -1⟩, true, game.setBallY (1 - game.ball.radius))
    else if game.ball.position.y - game.ball.radius < 0 then
      (unit_normal.add ⟨0, 1⟩, true, game.setBallY game.ball.radius)
    else (unit_normal, need_to_wrap, game)
  let unit_normal := st.1
  let need_to_wrap := st.2.1
  let game := st.2.2
  if need_to_wrap then
    let unit_normal := unit_normal.normalize M
    game.setBallVelocity
      (game.ball.velocity.sub (unit_normal.scale (2 * game.ball.velocity.dot unit_normal)))
  else game

/-- Lines 193-195: the right paddle (`paddles.second`) misses the ball. -/
def left_win (game : Game F) : Bool :=
  decide (game.ball.position.y + game.ball.radius + bounce_buffer < game.paddles.second.position) ||
  decide (game.ball.position.y - game.ball.radius - bounce_buffer >
    game.paddles.second.position + game.paddles.second.height)

/-- Lines 197-199: the left paddle (`paddles.first`) misses the ball. -/
def right_win (game : Game F) : Bool :=
  decide (game.ball.position.y + game.ball.radius + bounce_buffer < game.paddles.first.position) ||
  decide (game.ball.position.y - game.ball.radius - bounce_buffer >
    game.paddles.first.position + game.paddles.first.height)

/-- Lines 206 and 214: `relative_isct_y` for the paddle `p`. -/
def relative_isct_y (p : Paddle F) (ball : Ball F) : F :=
  ((p.position + p.height / 2) - ball.position.y) / (p.height / 2)

/-- Guard of line 202: the right-paddle bounce branch is taken. -/
def right_bounce (game : Game F) (settings : Settings F) : Bool :=
  decide (game.ball.position.x + game.ball.radius ≥ 1 - settings.paddle_width) && !left_win game

/-- Guard of line 210: the left-paddle bounce branch is taken (the right one is not). -/
def left_bounce (game : Game F) (settings : Settings F) : Bool :=
  !right_bounce game settings &&
  (decide (game.ball.position.x - game.ball.radius ≤ settings.paddle_width) && !right_win game)

/-- Lines 202-217 of `perform_ball_collisions`: the paddle bounces. -/
def paddle_collision (M : Libm F) (game : Game F) (settings : Settings F) : Game F :=
  if right_bounce game settings then
    let game := game.setBallX (1 - settings.paddle_width - game.ball.radius)
    let relative_isct_y := relative_isct_y game.paddles.second game.ball
    let bounce_angle := relative_isct_y * max_bounce_angle M
    game.setBallVelocity
      (((toRotationMatrix M bounce_angle).mulVec ⟨-1, 0⟩).scale settings.ball_speed)
  else if left_bounce game settings then
    let game := game.setBallX (settings.paddle_width + game.ball.radius)
    let relative_isct_y := relative_isct_y game.paddles.first game.ball
    let bounce_angle := relative_isct_y * max_bounce_angle M
    game.setBallVelocity
      (((toRotationMatrix M (-bounce_angle)).mulVec ⟨1, 0⟩).scale settings.ball_speed)
  else game

/-- Lines 219-228 of `perform_ball_collisions`: scoring and reset. -/
def score_check (game : Game F) (settings : Settings F) : Game F :=
  if game.ball.position.x + game.ball.radius ≥ 1 then
    reset_game settings { game.score with left := game.score.left + 1 } true
  else if game.ball.position.x - game.ball.radius ≤ 0 then
    reset_game settings { game.score with right := game.score.right + 1 } false
  else game

/-- Lines 166-229: wall reflection, then paddle bounce, then scoring. -/
def perform_ball_collisions (M : Libm F) (game : Game F) (settings : Settings F) : Game F :=
  score_check (paddle_collision M (wall_collision M game) settings) settings

/-! ## The frame step (`main.cc` lines 231-251) -/

/-- Lines 238-245: the lambda `update_position` of `loop_game`. -/
def update_position (dt : F) (settings : Settings F) (p : Paddle F) : Paddle F :=
  let direction := sign p.velocity
  if paddle_can_move p direction settings then
    { p with position := p.position + p.velocity * dt }
  else if direction = -1 then { p with position := 0 }
  else if direction = 1 then { p with position := 1 - settings.paddle_height }
  else p

/-- Line 234: `game.ball.position += game.ball.velocity * dt`. -/
def integrate_ball (game : Game F) (dt : F) : Game F :=
  { game with
    ball := { game.ball with position := game.ball.position.add (game.ball.velocity.scale dt) } }

/-- Lines 231-251, with the keyboard state as an argument. -/
def loop_game (M : Libm F) (keys : Keys) (game : Game F) (dt : F) (settings : Settings F) :
    Game F :=
  let game := integrate_ball game dt
  let game := handle_keypress keys game dt settings
  let game : Game F :=
    { game with
      paddles :=
        ⟨update_position dt settings game.paddles.first,
         update_position dt settings game.paddles.second⟩ }
  perform_ball_collisions M game settings

/-- A run of the main loop: `loop_game` once per frame, each frame with its own
time step and keyboard state. -/
def run_frames (M : Libm F) (settings : Settings F) (game : Game F) :
    List (F × Keys) → Game F
  | [] => game
  | (dt, keys) :: rest => run_frames M settings (loop_game M keys game dt settings) rest

/-- The values `main` assigns to `settings` (lines 302-310); the window size is a parameter. -/
def default_settings (window_width window_height : Int) : Settings F :=
  { window_width := window_width
    window_height := window_height
    paddle_speed := 7 / 4
    ball_speed := 4 / 5
    ball_radius := 1 / 100
    paddle_width := 1 / 100
    paddle_height := 1 / 5
    margin_v := 1 / 20
    margin_h := 1 / 20 }

/-! ## Concrete inputs used to evaluate the definitions -/

/-- No key pressed. -/
def no_keys : Keys := { LeftUp := false, LeftDown := false, RightUp := false, RightDown := false }

/-- Only the left player's "down" key (`Keymap::LeftDown`) pressed. -/
def left_down_keys : Keys :=
  { LeftUp := false, LeftDown := true, RightUp := false, RightDown := false }

/-- A ball about to touch the right paddle plane just above the paddle's top edge:
ball centre `(0.985, 0.39)`, radius `0.01`, moving right; both paddles at `0.4` with height `0.2`. -/
def edge_hit_game : Game F :=
  { paddles := ⟨⟨1 / 5, 2 / 5, 0⟩, ⟨1 / 5, 2 / 5, 0⟩⟩
    ball := ⟨1 / 100, ⟨197 / 200, 39 / 100⟩, ⟨4 / 5, 0⟩⟩
    score := ⟨0, 0⟩ }

/-- A ball that has crossed the top wall (`y + radius > 1`) in mid-field, moving with
velocity `(0.48, 0.64)`. -/
def top_wall_game : Game F :=
  { paddles := ⟨⟨1 / 5, 2 / 5, 0⟩, ⟨1 / 5, 2 / 5, 0⟩⟩
    ball := ⟨1 / 100, ⟨1 / 2, 199 / 200⟩, ⟨12 / 25, 16 / 25⟩⟩
    score := ⟨0, 0⟩ }

/-- Repeated `accelerate_paddle` in one direction, one call per frame, each frame with its
own time step. -/
def accelerate_frames (settings : Settings F) (direction : Int) (paddle : Paddle F) :
    List F → Paddle F
  | [] => paddle
  | dt :: rest =>
    accelerate_frames settings direction (accelerate_paddle paddle direction dt settings) rest

/-- Repeated `decelerate_paddle`: `n` calls with the same time step. -/
def decelerate_frames (dt : F) (paddle : Paddle F) : Nat → Paddle F
  | 0 => paddle
  | n + 1 => decelerate_frames dt (decelerate_paddle paddle dt) n

/-- A ball past the right edge (`x + radius >= 1`) well above the right paddle:
ball centre `(0.995, 0.2)`, radius `0.01`, paddles spanning `[0.4, 0.6]`, score `2 - 3`. -/
def right_miss_game : Game F :=
  { paddles := ⟨⟨1 / 5, 2 / 5, 0⟩, ⟨1 / 5, 2 / 5, 0⟩⟩
    ball := ⟨1 / 100, ⟨199 / 200, 1 / 5⟩, ⟨4 / 5, 0⟩⟩
    score := ⟨2, 3⟩ }

/-- A ball past the left edge (`x - radius <= 0`) well below the left paddle:
ball centre `(0.005, 0.9)`, radius `0.01`, paddles spanning `[0.4, 0.6]`, score `2 - 3`. -/
def left_miss_game : Game F :=
  { paddles := ⟨⟨1 / 5, 2 / 5, 0⟩, ⟨1 / 5, 2 / 5, 0⟩⟩
    ball := ⟨1 / 100, ⟨1 / 200, 9 / 10⟩, ⟨-(4 / 5), 0⟩⟩
    score := ⟨2, 3⟩ }

/-- The straight-back scenario: ball centre `(0.995, 0.5)`, radius `0.01`, velocity `(0.8, 0)`,
both paddles at rest spanning `[0.4, 0.6]`, score `0 - 0`. -/
def centre_hit_game : Game F :=
  { paddles := ⟨⟨1 / 5, 2 / 5, 0⟩, ⟨1 / 5, 2 / 5, 0⟩⟩
    ball := ⟨1 / 100, ⟨199 / 200, 1 / 2⟩, ⟨4 / 5, 0⟩⟩
    score := ⟨0, 0⟩ }

/-- Only the left player's "up" key (`Keymap::LeftUp`) pressed. -/
def left_up_keys : Keys :=
  { LeftUp := true, LeftDown := false, RightUp := false, RightDown := false }

/-- The clamp of `x` to the interval `[lo, hi]`, the reference against which
`accelerate_paddle` is compared. -/
def clamp (x lo hi : F) : F := max lo (min x hi)

/-- The frame step with the paddle update moved before the ball integration: input policy,
paddle position integration, then `ball.position += velocity * dt`, then
`perform_ball_collisions`. The reference against which the order of `loop_game` is compared. -/
def loop_game_paddles_first (M : Libm F) (keys : Keys) (game : Game F) (dt : F)
    (settings : Settings F) : Game F :=
  let game := handle_keypress keys game dt settings
  let game : Game F :=
    { game with
      paddles :=
        ⟨update_position dt settings game.paddles.first,
         update_position dt settings game.paddles.second⟩ }
  let game := integrate_ball game dt
  perform_ball_collisions M game settings

end Defs

section Lemmas

variable {F : Type} [LinearOrderedField F]

/-- The wall step in closed form, for a maths library whose `sqrt` maps `1` to `1`. -/
theorem wall_collision_eq (M : Libm F) (h1 : M.sqrt 1 = 1) (g : Game F) :
    wall_collision M g =
      if g.ball.position.y + g.ball.radius > 1 then
        { g with ball := ⟨g.ball.radius, ⟨g.ball.position.x, 1 - g.ball.radius⟩,
                          ⟨g.ball.velocity.x, -g.ball.velocity.y⟩⟩ }
      else if g.ball.position.y - g.ball.radius < 0 then
        { g with ball := ⟨g.ball.radius, ⟨g.ball.position.x, g.ball.radius⟩,
                          ⟨g.ball.velocity.x, -g.ball.velocity.y⟩⟩ }
      else g := by
  unfold wall_collision
  by_cases h : g.ball.position.y + g.ball.radius > 1
  · simp [h, Vector2d.normalize, Vector2d.add, Vector2d.squaredNorm, Vector2d.sub,
      Vector2d.scale, Vector2d.dot, Game.setBallY, Game.setBallVelocity, h1]
    ring
  · by_cases h' : g.ball.position.y - g.ball.radius < 0
    · simp [h, h', Vector2d.normalize, Vector2d.add, Vector2d.squaredNorm, Vector2d.sub,
        Vector2d.scale, Vector2d.dot, Game.setBallY, Game.setBallVelocity, h1]
      ring
    · simp [h, h']

/-- The wall step keeps the squared speed of the ball. -/
theorem wall_collision_speed (M : Libm F) (h1 : M.sqrt 1 = 1) (g : Game F) :
    (wall_collision M g).ball.velocity.x ^ 2 + (wall_collision M g).ball.velocity.y ^ 2 =
      g.ball.velocity.x ^ 2 + g.ball.velocity.y ^ 2 := by
  rw [wall_collision_eq M h1]
  split_ifs <;> simp

/-- The wall step leaves the score alone. -/
theorem wall_collision_score (M : Libm F) (g : Game F) :
    (wall_collision M g).score = g.score := by
  unfold wall_collision
  split_ifs <;> simp_all [Game.setBallY, Game.setBallVelocity]

/-- The paddle step leaves the score alone. -/
theorem paddle_collision_score (M : Libm F) (g : Game F) (s : Settings F) :
    (paddle_collision M g s).score = g.score := by
  unfold paddle_collision
  split_ifs <;> simp [Game.setBallX, Game.setBallVelocity]

/-- Squared speed after the paddle step: `ball_speed ^ 2` when a bounce branch is taken
(for a maths library with `cos ^ 2 + sin ^ 2 = 1`), unchanged otherwise. -/
theorem paddle_collision_speed (M : Libm F) (hcs : ∀ t, M.cos t ^ 2 + M.sin t ^ 2 = 1)
    (g : Game F) (s : Settings F) :
    (paddle_collision M g s).ball.velocity.x ^ 2 + (paddle_collision M g s).ball.velocity.y ^ 2 =
      if right_bounce g s = true ∨ left_bounce g s = true then s.ball_speed ^ 2
      else g.ball.velocity.x ^ 2 + g.ball.velocity.y ^ 2 := by
  unfold paddle_collision
  by_cases hr : right_bounce g s = true
  · simp only [hr, if_true, true_or, Game.setBallVelocity, Game.setBallX, toRotationMatrix,
      Matrix2d.mulVec, Vector2d.scale]
    have := hcs (relative_isct_y g.paddles.second
      { g.ball with position := ⟨1 - s.paddle_width - g.ball.radius, g.ball.position.y⟩ } *
        max_bounce_angle M)
    linear_combination s.ball_speed ^ 2 * this
  · by_cases hl : left_bounce g s = true
    · simp only [hr, hl, if_true, or_true, Game.setBallVelocity, Game.setBallX, toRotationMatrix,
        Matrix2d.mulVec, Vector2d.scale]
      have := hcs (-(relative_isct_y g.paddles.first
        { g.ball with position := ⟨s.paddle_width + g.ball.radius, g.ball.position.y⟩ } *
          max_bounce_angle M))
      simp only [Bool.false_eq_true, if_false]
      linear_combination s.ball_speed ^ 2 * this
    · simp [hr, hl]

end Lemmas

/-! ## Paddle bound (C1) -/

section PaddleBound

variable {F : Type} [LinearOrderedField F]

/-- C1, the code at the failing input: starting from `reset_game` with the settings of
`main`, one frame of `loop_game` with the left "down" key held and `dt = 1/4` moves the left
paddle from `0.4` to `0.4 + 1.75 * 0.25 = 0.8375`, beyond the bound
`1 - paddle_height = 0.8`: the position is integrated without a clamp, and the snap to the
bound only happens on a later frame in which the paddle still moves towards the wall.
A second frame with no key pressed brings the velocity to exactly `0`, so that no snap
happens and the paddle stays at `0.8375`. -/
theorem loop_game_paddle_overshoot (M : Libm F) :
    (loop_game M left_down_keys (reset_game (default_settings 800 600) ⟨0, 0⟩ false) (1 / 4)
        (default_settings 800 600)).paddles.first.position = 67 / 80 ∧
    ¬ (loop_game M left_down_keys (reset_game (default_settings 800 600) ⟨0, 0⟩ false) (1 / 4)
        (default_settings 800 600)).paddles.first.position
        ≤ 1 - (default_settings 800 600 : Settings F).paddle_height ∧
    (run_frames M (default_settings 800 600) (reset_game (default_settings 800 600) ⟨0, 0⟩ false)
        [(1 / 4, left_down_keys), (1 / 4, no_keys)]).paddles.first.position = 67 / 80 := by
  have h : (loop_game M left_down_keys (reset_game (default_settings 800 600) ⟨0, 0⟩ false)
      (1 / 4) (default_settings 800 600)).paddles.first.position = (67 / 80 : F) := by
    norm_num [loop_game, perform_ball_collisions, score_check, paddle_collision, wall_collision,
      integrate_ball, handle_keypress, update_position, reset_game, default_settings,
      accelerate_paddle, paddle_can_move, sign, right_bounce, left_bounce, left_win, right_win,
      bounce_buffer, Vector2d.add, Vector2d.scale, Game.setBallX, Game.setBallY,
      Game.setBallVelocity, left_down_keys]
  refine ⟨h, ?_, ?_⟩
  · rw [h]
    norm_num [default_settings]
  · have ha : |(7 / 4 : F)| = 7 / 4 := abs_of_pos (by norm_num)
    have hm : (0 : F) ⊔ (7 / 4 - 25) = 0 := max_eq_left (by norm_num)
    norm_num [ha, hm, run_frames, loop_game, perform_ball_collisions, score_check, paddle_collision,
      wall_collision, integrate_ball, handle_keypress, update_position, reset_game,
      default_settings, accelerate_paddle, decelerate_paddle, paddle_can_move, sign,
      right_bounce, left_bounce, left_win, right_win, bounce_buffer, Vector2d.add,
      Vector2d.scale, Game.setBallX, Game.setBallY, Game.setBallVelocity, left_down_keys,
      no_keys]

end PaddleBound

/-! ## Ball speed over runs (C2) -/

section BallSpeed

variable {F : Type} [LinearOrderedField F]

/-- Squared speed of the ball after `reset_game`. -/
theorem reset_game_speed (s : Settings F) (score : Score) (left_start : Bool) :
    (reset_game s score left_start).ball.velocity.x ^ 2 +
      (reset_game s score left_start).ball.velocity.y ^ 2 = s.ball_speed ^ 2 := by
  cases left_start <;> simp [reset_game]

/-- The scoring step either resets the game or leaves it alone, so it keeps the
invariant "squared speed is `ball_speed ^ 2`". -/
theorem score_check_speed (g : Game F) (s : Settings F)
    (h : g.ball.velocity.x ^ 2 + g.ball.velocity.y ^ 2 = s.ball_speed ^ 2) :
    (score_check g s).ball.velocity.x ^ 2 + (score_check g s).ball.velocity.y ^ 2 =
      s.ball_speed ^ 2 := by
  unfold score_check
  split_ifs
  · exact reset_game_speed s _ true
  · exact reset_game_speed s _ false
  · exact h

/-- One frame keeps the invariant "squared speed is `ball_speed ^ 2`". -/
theorem loop_game_speed (M : Libm F) (h1 : M.sqrt 1 = 1)
    (hcs : ∀ t, M.cos t ^ 2 + M.sin t ^ 2 = 1) (keys : Keys) (g : Game F) (dt : F)
    (s : Settings F) (h : g.ball.velocity.x ^ 2 + g.ball.velocity.y ^ 2 = s.ball_speed ^ 2) :
    (loop_game M keys g dt s).ball.velocity.x ^ 2 + (loop_game M keys g dt s).ball.velocity.y ^ 2 =
      s.ball_speed ^ 2 := by
  unfold loop_game perform_ball_collisions
  apply score_check_speed
  rw [paddle_collision_speed M hcs]
  split_ifs
  · rfl
  · rw [wall_collision_speed M h1]
    simpa [integrate_ball, handle_keypress] using h

/-- A run keeps the invariant "squared speed is `ball_speed ^ 2`". -/
theorem run_frames_speed (M : Libm F) (h1 : M.sqrt 1 = 1)
    (hcs : ∀ t, M.cos t ^ 2 + M.sin t ^ 2 = 1) (s : Settings F) (frames : List (F × Keys)) :
    ∀ g : Game F, g.ball.velocity.x ^ 2 + g.ball.velocity.y ^ 2 = s.ball_speed ^ 2 →
      (run_frames M s g frames).ball.velocity.x ^ 2 +
        (run_frames M s g frames).ball.velocity.y ^ 2 = s.ball_speed ^ 2 := by
  induction frames with
  | nil => intro g h; simpa [run_frames] using h
  | cons f rest ih =>
    intro g h
    obtain ⟨dt, keys⟩ := f
    simp only [run_frames]
    exact ih _ (loop_game_speed M h1 hcs keys g dt s h)

end BallSpeed

/-- C2: in every state reached from `reset_game settings score side` by any number of
`loop_game` frames (each with its own `dt` and keyboard state), the ball velocity satisfies
`vx ^ 2 + vy ^ 2 = ball_speed ^ 2`; doubles are read as reals and `cos`, `sin`, `sqrt` as the
real functions. -/
theorem ball_speed_invariant (settings : Settings ℝ) (score : Score) (left_start : Bool)
    (frames : List (ℝ × Keys)) :
    (run_frames ⟨Real.cos, Real.sin, Real.sqrt, Real.pi⟩ settings
        (reset_game settings score left_start) frames).ball.velocity.x ^ 2 +
      (run_frames ⟨Real.cos, Real.sin, Real.sqrt, Real.pi⟩ settings
        (reset_game settings score left_start) frames).ball.velocity.y ^ 2 =
      settings.ball_speed ^ 2 :=
  run_frames_speed ⟨Real.cos, Real.sin, Real.sqrt, Real.pi⟩ Real.sqrt_one
    (fun t => Real.cos_sq_add_sin_sq t) settings frames _
    (reset_game_speed settings score left_start)

/-! ## Bounce angle (C3) and bounce speed (C4) -/

section Bounce

variable {F : Type} [LinearOrderedField F]

/-- C3, the code at the failing input: with the settings of `main`, for the ball at
`(0.985, 0.39)` with radius `0.01` and the right paddle spanning `[0.4, 0.6]`, the
miss test (widened by the radius and `bounce_buffer`) does not fire, the right-paddle bounce
branch is taken, and `relative_isct_y = (0.5 - 0.39) / 0.1 = 1.1 > 1`: the velocity is set
from the rotation by `1.1 * max_bounce_angle`, an angle larger than `max_bounce_angle`. -/
theorem bounce_angle_beyond_max (M : Libm F) :
    right_bounce (wall_collision M edge_hit_game) (default_settings 800 600) = true ∧
    relative_isct_y (wall_collision M edge_hit_game).paddles.second
      (wall_collision M edge_hit_game).ball = 11 / 10 ∧
    ¬ |relative_isct_y (wall_collision M edge_hit_game).paddles.second
      (wall_collision M edge_hit_game).ball| ≤ (1 : F) ∧
    perform_ball_collisions M edge_hit_game (default_settings 800 600) =
      { edge_hit_game with
        ball := ⟨1 / 100, ⟨49 / 50, 39 / 100⟩,
          ((toRotationMatrix M (11 / 10 * max_bounce_angle M)).mulVec ⟨-1, 0⟩).scale (4 / 5)⟩ } := by
  have hw : wall_collision M (edge_hit_game : Game F) = edge_hit_game := by
    norm_num [wall_collision, edge_hit_game]
  have hb : right_bounce (edge_hit_game : Game F) (default_settings 800 600) = true := by
    norm_num [right_bounce, left_win, edge_hit_game, default_settings, bounce_buffer]
  have hr : relative_isct_y (edge_hit_game : Game F).paddles.second
      (edge_hit_game : Game F).ball = 11 / 10 := by
    norm_num [relative_isct_y, edge_hit_game]
  refine ⟨by rw [hw]; exact hb, by rw [hw]; exact hr, ?_, ?_⟩
  · rw [hw, hr, abs_of_pos (by norm_num)]
    norm_num
  · have hr2 : relative_isct_y (edge_hit_game : Game F).paddles.second
        { (edge_hit_game : Game F).ball with
          position := ⟨1 - (default_settings 800 600 : Settings F).paddle_width -
            (edge_hit_game : Game F).ball.radius, (edge_hit_game : Game F).ball.position.y⟩ } =
        11 / 10 := by
      norm_num [relative_isct_y, edge_hit_game]
    simp only [perform_ball_collisions, hw, paddle_collision, hb, if_true, Game.setBallX,
      Game.setBallVelocity, hr2]
    norm_num [score_check, edge_hit_game, default_settings]

end Bounce

/-- C4: whenever the paddle step of `perform_ball_collisions` takes a bounce branch on the
state `g` it is run on (any state, any incoming velocity), the velocity it assigns has squared
length `ball_speed ^ 2`; it is `ball_speed` times the rotation by `theta` of `(-1, 0)` for the
right paddle, and `ball_speed` times the rotation by `-theta` of `(1, 0)` for the left paddle,
where `theta = relative_isct_y * (5 * pi / 12)`. Doubles are read as reals. -/
theorem paddle_bounce_sets_speed (g : Game ℝ) (s : Settings ℝ)
    (h : right_bounce g s = true ∨ left_bounce g s = true) :
    (paddle_collision ⟨Real.cos, Real.sin, Real.sqrt, Real.pi⟩ g s).ball.velocity.x ^ 2 +
      (paddle_collision ⟨Real.cos, Real.sin, Real.sqrt, Real.pi⟩ g s).ball.velocity.y ^ 2 =
        s.ball_speed ^ 2 ∧
    (right_bounce g s = true →
      (paddle_collision ⟨Real.cos, Real.sin, Real.sqrt, Real.pi⟩ g s).ball.velocity =
        ⟨-Real.cos (relative_isct_y g.paddles.second g.ball * (5 * Real.pi / 12)) * s.ball_speed,
         -Real.sin (relative_isct_y g.paddles.second g.ball * (5 * Real.pi / 12)) *
           s.ball_speed⟩) ∧
    (left_bounce g s = true →
      (paddle_collision ⟨Real.cos, Real.sin, Real.sqrt, Real.pi⟩ g s).ball.velocity =
        ⟨Real.cos (-(relative_isct_y g.paddles.first g.ball * (5 * Real.pi / 12))) * s.ball_speed,
         Real.sin (-(relative_isct_y g.paddles.first g.ball * (5 * Real.pi / 12))) *
           s.ball_speed⟩) := by
  refine ⟨?_, ?_, ?_⟩
  · rw [paddle_collision_speed _ (fun t => Real.cos_sq_add_sin_sq t), if_pos h]
  · intro hr
    simp [paddle_collision, hr, Game.setBallX, Game.setBallVelocity, toRotationMatrix,
      Matrix2d.mulVec, Vector2d.scale, relative_isct_y, max_bounce_angle]
  · intro hl
    have hr : right_bounce g s = false := by
      simp only [left_bounce, Bool.and_eq_true, Bool.not_eq_true'] at hl
      exact hl.1
    simp [paddle_collision, hr, hl, Game.setBallX, Game.setBallVelocity, toRotationMatrix,
      Matrix2d.mulVec, Vector2d.scale, relative_isct_y, max_bounce_angle]

/-- Witness for C4: the edge-hit state with the settings of `main` takes the right-paddle
bounce branch, and the assigned velocity has squared length `0.8 ^ 2`. -/
theorem paddle_bounce_sets_speed_witness :
    right_bounce (edge_hit_game : Game ℝ) (default_settings 800 600) = true ∧
    (paddle_collision ⟨Real.cos, Real.sin, Real.sqrt, Real.pi⟩ (edge_hit_game : Game ℝ)
        (default_settings 800 600)).ball.velocity.x ^ 2 +
      (paddle_collision ⟨Real.cos, Real.sin, Real.sqrt, Real.pi⟩ (edge_hit_game : Game ℝ)
        (default_settings 800 600)).ball.velocity.y ^ 2 = (4 / 5) ^ 2 := by
  have hb : right_bounce (edge_hit_game : Game ℝ) (default_settings 800 600) = true := by
    norm_num [right_bounce, left_win, edge_hit_game, default_settings, bounce_buffer]
  exact ⟨hb, (paddle_bounce_sets_speed edge_hit_game (default_settings 800 600) (Or.inl hb)).1⟩

/-! ## Wall reflection (C5) -/

/-- C5: the wall step of `perform_ball_collisions`. If `y + radius > 1` then `y` becomes
`1 - radius`; otherwise, if `y - radius < 0`, then `y` becomes `radius`; in both cases the
velocity becomes `(vx, -vy)`, which is the reflection `v - 2 (v . n) n` about the unit normal
`(0, -1)`, respectively `(0, 1)`, and nothing else changes. When neither test holds the state
is unchanged. In every case `vx ^ 2 + vy ^ 2` is unchanged. Doubles are read as reals. -/
theorem wall_reflection (g : Game ℝ) :
    (g.ball.position.y + g.ball.radius > 1 →
      wall_collision ⟨Real.cos, Real.sin, Real.sqrt, Real.pi⟩ g =
        { g with ball := ⟨g.ball.radius, ⟨g.ball.position.x, 1 - g.ball.radius⟩,
                          ⟨g.ball.velocity.x, -g.ball.velocity.y⟩⟩ } ∧
      (⟨g.ball.velocity.x, -g.ball.velocity.y⟩ : Vector2d ℝ) =
        g.ball.velocity.sub
          ((⟨0, -1⟩ : Vector2d ℝ).scale (2 * g.ball.velocity.dot ⟨0, -1⟩))) ∧
    (¬ g.ball.position.y + g.ball.radius > 1 → g.ball.position.y - g.ball.radius < 0 →
      wall_collision ⟨Real.cos, Real.sin, Real.sqrt, Real.pi⟩ g =
        { g with ball := ⟨g.ball.radius, ⟨g.ball.position.x, g.ball.radius⟩,
                          ⟨g.ball.velocity.x, -g.ball.velocity.y⟩⟩ } ∧
      (⟨g.ball.velocity.x, -g.ball.velocity.y⟩ : Vector2d ℝ) =
        g.ball.velocity.sub
          ((⟨0, 1⟩ : Vector2d ℝ).scale (2 * g.ball.velocity.dot ⟨0, 1⟩))) ∧
    (¬ g.ball.position.y + g.ball.radius > 1 → ¬ g.ball.position.y - g.ball.radius < 0 →
      wall_collision ⟨Real.cos, Real.sin, Real.sqrt, Real.pi⟩ g = g) ∧
    (wall_collision ⟨Real.cos, Real.sin, Real.sqrt, Real.pi⟩ g).ball.velocity.x ^ 2 +
      (wall_collision ⟨Real.cos, Real.sin, Real.sqrt, Real.pi⟩ g).ball.velocity.y ^ 2 =
        g.ball.velocity.x ^ 2 + g.ball.velocity.y ^ 2 := by
  refine ⟨?_, ?_, ?_, wall_collision_speed _ Real.sqrt_one g⟩
  · intro h
    refine ⟨by rw [wall_collision_eq _ Real.sqrt_one, if_pos h], ?_⟩
    simp [Vector2d.sub, Vector2d.scale, Vector2d.dot]
    ring
  · intro h h'
    refine ⟨by rw [wall_collision_eq _ Real.sqrt_one, if_neg h, if_pos h'], ?_⟩
    simp [Vector2d.sub, Vector2d.scale, Vector2d.dot]
    ring
  · intro h h'
    rw [wall_collision_eq _ Real.sqrt_one, if_neg h, if_neg h']

/-- Witness for C5: a ball at `y = 0.995` with radius `0.01` and velocity `(0.48, 0.64)` is
put back at `y = 0.99` with velocity `(0.48, -0.64)`. -/
theorem wall_reflection_witness :
    (top_wall_game : Game ℝ).ball.position.y + (top_wall_game : Game ℝ).ball.radius > 1 ∧
    wall_collision ⟨Real.cos, Real.sin, Real.sqrt, Real.pi⟩ (top_wall_game : Game ℝ) =
      { (top_wall_game : Game ℝ) with
        ball := ⟨1 / 100, ⟨1 / 2, 99 / 100⟩, ⟨12 / 25, -(16 / 25)⟩⟩ } := by
  have h : (top_wall_game : Game ℝ).ball.position.y + (top_wall_game : Game ℝ).ball.radius > 1 := by
    norm_num [top_wall_game]
  refine ⟨h, ?_⟩
  rw [((wall_reflection top_wall_game).1 h).1]
  norm_num [top_wall_game]

/-! ## Paddle velocity: acceleration clamp (C6) and deceleration (C7) -/

section PaddleVelocity

variable {F : Type} [LinearOrderedField F]

/-- One `accelerate_paddle` call bounds the velocity by `paddle_speed`. -/
theorem accelerate_paddle_abs_le (s : Settings F) (hs : 0 ≤ s.paddle_speed) (d : Int)
    (hd : d = -1 ∨ d = 1) (p : Paddle F) (dt : F) :
    |(accelerate_paddle p d dt s).velocity| ≤ s.paddle_speed := by
  unfold accelerate_paddle
  by_cases h1 : |p.velocity| = s.paddle_speed ∧ sign p.velocity = d
  · rw [if_pos h1]
    exact le_of_eq h1.1
  · rw [if_neg h1]
    by_cases h2 : |p.velocity + (d : F) * 100 * dt| < s.paddle_speed
    · simp only [h2, if_true]
      exact le_of_lt h2
    · simp only [h2, if_false]
      rcases hd with rfl | rfl <;> simp [abs_of_nonneg hs]

/-- Value of `sign` on positive numbers. -/
theorem sign_of_pos {v : F} (h : 0 < v) : sign v = 1 := by
  simp [sign, h, not_lt_of_gt h]

/-- Value of `sign` on negative numbers. -/
theorem sign_of_neg {v : F} (h : v < 0) : sign v = -1 := by
  simp [sign, h, not_lt_of_gt h]

/-- The absolute value of `sign v` is `1` away from `0`. -/
theorem abs_sign_cast (v : F) (hv : v ≠ 0) : |((sign v : Int) : F)| = 1 := by
  unfold sign
  rcases lt_or_gt_of_ne hv with h | h
  · simp [h, not_lt_of_gt h]
  · simp [h, not_lt_of_gt h]

/-- Magnitude after one `decelerate_paddle` call with a non-negative time step. -/
theorem decelerate_paddle_abs (p : Paddle F) (dt : F) (hdt : 0 ≤ dt) :
    |(decelerate_paddle p dt).velocity| = max 0 (|p.velocity| - 100 * dt) := by
  unfold decelerate_paddle
  split_ifs with h
  · rw [h, abs_zero, zero_sub]
    exact (max_eq_left (by linarith)).symm
  · simp only [abs_mul, abs_sign_cast _ h, mul_one]
    exact abs_of_nonneg (le_max_left _ _)

/-- Magnitude after `n` calls of `decelerate_paddle` with the same non-negative time step. -/
theorem decelerate_frames_abs (dt : F) (hdt : 0 ≤ dt) (n : Nat) :
    ∀ p : Paddle F,
      |(decelerate_frames dt p n).velocity| = max 0 (|p.velocity| - (n : F) * 100 * dt) := by
  induction n with
  | zero => intro p; simp [decelerate_frames]
  | succ k ih =>
    intro p
    simp only [decelerate_frames]
    rw [ih, decelerate_paddle_abs p dt hdt]
    push_cast
    rcases le_total (|p.velocity| - 100 * dt) 0 with h | h
    · rw [max_eq_left h, max_eq_left, max_eq_left]
      · have : 0 ≤ (k : F) * 100 * dt := by positivity
        linarith
      · have : 0 ≤ (k : F) * 100 * dt := by positivity
        linarith
    · rw [max_eq_right h]
      congr 1
      ring

end PaddleVelocity

/-- C6: for `paddle_speed >= 0` and a direction in `{-1, +1}`, a single `accelerate_paddle`
call leaves `|velocity| <= paddle_speed` from any starting velocity and for any `dt`; and
starting from `|velocity| <= paddle_speed`, so does any number of calls in that direction
(each with its own `dt`). -/
theorem accelerate_clamp {F : Type} [LinearOrderedField F] (settings : Settings F)
    (hs : 0 ≤ settings.paddle_speed) (direction : Int) (hd : direction = -1 ∨ direction = 1) :
    (∀ (p : Paddle F) (dt : F),
      |(accelerate_paddle p direction dt settings).velocity| ≤ settings.paddle_speed) ∧
    (∀ (dts : List F) (p : Paddle F), |p.velocity| ≤ settings.paddle_speed →
      |(accelerate_frames settings direction p dts).velocity| ≤ settings.paddle_speed) := by
  refine ⟨accelerate_paddle_abs_le settings hs direction hd, ?_⟩
  intro dts
  induction dts with
  | nil => intro p hp; simpa [accelerate_frames] using hp
  | cons dt rest ih =>
    intro p _
    simp only [accelerate_frames]
    exact ih _ (accelerate_paddle_abs_le settings hs direction hd p dt)

/-- Witness for C6: with the settings of `main`, three "down" frames from rest, the last one
a long one, leave the velocity within `paddle_speed = 1.75`. -/
theorem accelerate_clamp_witness :
    (0 : ℚ) ≤ (default_settings 800 600 : Settings ℚ).paddle_speed ∧
    |(accelerate_frames (default_settings 800 600 : Settings ℚ) 1 ⟨1 / 5, 2 / 5, 0⟩
        [1 / 60, 1 / 60, 3]).velocity| ≤ (default_settings 800 600 : Settings ℚ).paddle_speed :=
  ⟨by norm_num [default_settings],
   (accelerate_clamp (default_settings 800 600 : Settings ℚ) (by norm_num [default_settings]) 1
      (Or.inr rfl)).2 _ _ (by norm_num [default_settings])⟩

/-- C7: for a paddle with velocity `v != 0` and `dt > 0`, one `decelerate_paddle` call yields
`sign v * max 0 (|v| - 100 * dt)`; the magnitude strictly decreases; the sign does not flip
(the new velocity is `0` or has the sign of `v`); after `n` calls with `n * 100 * dt >= |v|`
the velocity is exactly `0`. And `decelerate_paddle` leaves a paddle with velocity `0`
unchanged, for every `dt`. -/
theorem decelerate_convergence {F : Type} [LinearOrderedField F] (p : Paddle F) (dt : F) :
    (p.velocity ≠ 0 → 0 < dt →
      (decelerate_paddle p dt).velocity =
        ((sign p.velocity : Int) : F) * max 0 (|p.velocity| - 100 * dt) ∧
      |(decelerate_paddle p dt).velocity| < |p.velocity| ∧
      ((decelerate_paddle p dt).velocity = 0 ∨
        sign (decelerate_paddle p dt).velocity = sign p.velocity) ∧
      ∀ n : Nat, |p.velocity| ≤ (n : F) * 100 * dt → (decelerate_frames dt p n).velocity = 0) ∧
    (p.velocity = 0 → decelerate_paddle p dt = p) := by
  refine ⟨?_, ?_⟩
  · intro hv hdt
    have habs : 0 < |p.velocity| := abs_pos.mpr hv
    refine ⟨?_, ?_, ?_, ?_⟩
    · simp [decelerate_paddle, hv, mul_comm]
    · rw [decelerate_paddle_abs p dt hdt.le]
      apply max_lt habs
      linarith
    · simp only [decelerate_paddle, hv, if_false]
      rcases le_or_lt (|p.velocity| - 100 * dt) 0 with h | h
      · left
        simp [max_eq_left h]
      · right
        rw [max_eq_right h.le]
        rcases lt_or_gt_of_ne hv with hneg | hpos
        · rw [sign_of_neg hneg]
          apply sign_of_neg
          push_cast
          linarith
        · rw [sign_of_pos hpos]
          apply sign_of_pos
          push_cast
          linarith
    · intro n hn
      have := decelerate_frames_abs dt hdt.le n p
      rw [max_eq_left (by linarith)] at this
      exact abs_eq_zero.mp this
  · intro hv
    simp [decelerate_paddle, hv]

/-- Witness for C7: from velocity `1.75`, frames of `dt = 1/100` take one unit of velocity
each, and two of them bring the paddle to rest. -/
theorem decelerate_convergence_witness :
    (decelerate_paddle (⟨1 / 5, 2 / 5, 7 / 4⟩ : Paddle ℚ) (1 / 100)).velocity = 3 / 4 ∧
    (decelerate_frames (1 / 100) (⟨1 / 5, 2 / 5, 7 / 4⟩ : Paddle ℚ) 2).velocity = 0 := by
  have h := (decelerate_convergence (⟨1 / 5, 2 / 5, 7 / 4⟩ : Paddle ℚ) (1 / 100)).1
    (by norm_num) (by norm_num)
  refine ⟨?_, h.2.2.2 2 ?_⟩
  · rw [h.1]
    have ha : |(7 / 4 : ℚ)| = 7 / 4 := abs_of_pos (by norm_num)
    norm_num [sign, ha]
  · have ha : |(7 / 4 : ℚ)| = 7 / 4 := abs_of_pos (by norm_num)
    norm_num [ha]

/-! ## Scoring and reset (C8, C9, C10) -/

section Scoring

variable {F : Type} [LinearOrderedField F]

/-- The wall step only touches `ball.position.y` and `ball.velocity`. -/
theorem wall_collision_frame (M : Libm F) (g : Game F) :
    (wall_collision M g).ball.position.x = g.ball.position.x ∧
    (wall_collision M g).ball.radius = g.ball.radius ∧
    (wall_collision M g).paddles = g.paddles := by
  unfold wall_collision
  split_ifs <;> simp_all [Game.setBallY, Game.setBallVelocity]

/-- The paddle step keeps the radius of the ball. -/
theorem paddle_collision_radius (M : Libm F) (g : Game F) (s : Settings F) :
    (paddle_collision M g s).ball.radius = g.ball.radius := by
  unfold paddle_collision
  split_ifs <;> simp [Game.setBallX, Game.setBallVelocity]

/-- Horizontal position of the ball after the paddle step. -/
theorem paddle_collision_x (M : Libm F) (g : Game F) (s : Settings F) :
    (paddle_collision M g s).ball.position.x =
      if right_bounce g s = true then 1 - s.paddle_width - g.ball.radius
      else if left_bounce g s = true then s.paddle_width + g.ball.radius
      else g.ball.position.x := by
  unfold paddle_collision
  split_ifs <;> simp [Game.setBallX, Game.setBallVelocity]

/-- The three outcomes of `perform_ball_collisions` for the score: unchanged, or a reset
serving from the left with `left + 1`, or a reset serving from the right with `right + 1`. -/
theorem perform_ball_collisions_cases (M : Libm F) (g : Game F) (s : Settings F) :
    (perform_ball_collisions M g s).score = g.score ∨
    perform_ball_collisions M g s = reset_game s ⟨g.score.left + 1, g.score.right⟩ true ∨
    perform_ball_collisions M g s = reset_game s ⟨g.score.left, g.score.right + 1⟩ false := by
  have hsc : (paddle_collision M (wall_collision M g) s).score = g.score := by
    rw [paddle_collision_score, wall_collision_score]
  unfold perform_ball_collisions score_check
  split_ifs
  · right; left
    rw [hsc]
  · right; right
    rw [hsc]
  · left
    exact hsc

/-- The frame step hands `perform_ball_collisions` a game with the score it received. -/
theorem loop_game_eq (M : Libm F) (keys : Keys) (g : Game F) (dt : F) (s : Settings F) :
    ∃ g1 : Game F, g1.score = g.score ∧ loop_game M keys g dt s = perform_ball_collisions M g1 s :=
  ⟨_, by simp [handle_keypress, integrate_ball], rfl⟩

end Scoring

/-- C8: if on entry to `perform_ball_collisions` the ball has `x + radius >= 1` and the right
paddle misses it (`left_win`, evaluated with `y` after the wall clamp), then the result is
`reset_game settings (left + 1, right) true`: `score.left` is increased by exactly 1,
`score.right` is unchanged, and the ball is served from the left at
`x = ball_radius + margin_h + paddle_width`, `y = 0.5`, with velocity `(+ball_speed, 0)`. -/
theorem right_miss_scores_left {F : Type} [LinearOrderedField F] (M : Libm F) (g : Game F)
    (settings : Settings F) (hx : g.ball.position.x + g.ball.radius ≥ 1)
    (hmiss : left_win (wall_collision M g) = true) :
    perform_ball_collisions M g settings =
      reset_game settings ⟨g.score.left + 1, g.score.right⟩ true ∧
    (perform_ball_collisions M g settings).score.left = g.score.left + 1 ∧
    (perform_ball_collisions M g settings).score.right = g.score.right ∧
    (perform_ball_collisions M g settings).ball.position =
      ⟨settings.ball_radius + settings.margin_h + settings.paddle_width, 1 / 2⟩ ∧
    (perform_ball_collisions M g settings).ball.velocity = ⟨settings.ball_speed, 0⟩ := by
  obtain ⟨hwx, hwr, -⟩ := wall_collision_frame M g
  have hrb : right_bounce (wall_collision M g) settings = false := by
    simp [right_bounce, hmiss]
  have hedge : (paddle_collision M (wall_collision M g) settings).ball.position.x +
      (paddle_collision M (wall_collision M g) settings).ball.radius ≥ 1 := by
    rw [paddle_collision_x, paddle_collision_radius, hrb, hwx, hwr]
    simp only [Bool.false_eq_true, if_false]
    split_ifs with hl
    · simp only [left_bounce, Bool.and_eq_true, decide_eq_true_eq] at hl
      have := hl.2.1
      rw [hwx, hwr] at this
      linarith
    · exact hx
  have hres : perform_ball_collisions M g settings =
      reset_game settings ⟨g.score.left + 1, g.score.right⟩ true := by
    unfold perform_ball_collisions score_check
    rw [if_pos hedge, paddle_collision_score, wall_collision_score]
  rw [hres]
  simp [reset_game]

/-- Witness for C8: with the settings of `main`, a ball at `(0.995, 0.2)` misses the right
paddle spanning `[0.4, 0.6]`; the score goes from `2 - 3` to `3 - 3` and the ball is served
from `x = 0.07`. -/
theorem right_miss_scores_left_witness :
    (right_miss_game : Game ℝ).ball.position.x + (right_miss_game : Game ℝ).ball.radius ≥ 1 ∧
    perform_ball_collisions ⟨Real.cos, Real.sin, Real.sqrt, Real.pi⟩ (right_miss_game : Game ℝ)
      (default_settings 800 600) = reset_game (default_settings 800 600) ⟨3, 3⟩ true := by
  have hx : (right_miss_game : Game ℝ).ball.position.x +
      (right_miss_game : Game ℝ).ball.radius ≥ 1 := by
    norm_num [right_miss_game]
  have hw : wall_collision ⟨Real.cos, Real.sin, Real.sqrt, Real.pi⟩ (right_miss_game : Game ℝ) =
      right_miss_game := by
    norm_num [wall_collision, right_miss_game]
  have hmiss : left_win (wall_collision ⟨Real.cos, Real.sin, Real.sqrt, Real.pi⟩
      (right_miss_game : Game ℝ)) = true := by
    rw [hw]
    norm_num [left_win, right_miss_game, bounce_buffer]
  refine ⟨hx, ?_⟩
  rw [(right_miss_scores_left _ right_miss_game (default_settings 800 600) hx hmiss).1]
  norm_num [right_miss_game]

/-- C9: whenever a `perform_ball_collisions` call changes the score, the resulting game has
both paddles at position `0.5 - paddle_height / 2` with velocity `0` and height
`paddle_height`, the ball has radius `ball_radius` and `y = 0.5`, and either `score.left` was
incremented (the new score is `(left + 1, right)`) and the ball is at
`x = ball_radius + margin_h + paddle_width` with velocity `(+ball_speed, 0)`, or `score.right`
was incremented (the new score is `(left, right + 1)`) and the ball is at
`x = 1 - (ball_radius + margin_h + paddle_width)` with velocity `(-ball_speed, 0)`. -/
theorem score_event_resets {F : Type} [LinearOrderedField F] (M : Libm F) (g : Game F)
    (settings : Settings F) (h : (perform_ball_collisions M g settings).score ≠ g.score) :
    (perform_ball_collisions M g settings).paddles.first =
      ⟨settings.paddle_height, 1 / 2 - settings.paddle_height / 2, 0⟩ ∧
    (perform_ball_collisions M g settings).paddles.second =
      ⟨settings.paddle_height, 1 / 2 - settings.paddle_height / 2, 0⟩ ∧
    (perform_ball_collisions M g settings).ball.radius = settings.ball_radius ∧
    (perform_ball_collisions M g settings).ball.position.y = 1 / 2 ∧
    (((perform_ball_collisions M g settings).score = ⟨g.score.left + 1, g.score.right⟩ ∧
        (perform_ball_collisions M g settings).ball.position.x =
          settings.ball_radius + settings.margin_h + settings.paddle_width ∧
        (perform_ball_collisions M g settings).ball.velocity = ⟨settings.ball_speed, 0⟩) ∨
      ((perform_ball_collisions M g settings).score = ⟨g.score.left, g.score.right + 1⟩ ∧
        (perform_ball_collisions M g settings).ball.position.x =
          1 - (settings.ball_radius + settings.margin_h + settings.paddle_width) ∧
        (perform_ball_collisions M g settings).ball.velocity = ⟨-settings.ball_speed, 0⟩)) := by
  rcases perform_ball_collisions_cases M g settings with h0 | h1 | h2
  · exact absurd h0 h
  · rw [h1]
    simp [reset_game]
  · rw [h2]
    simp [reset_game]

/-- Witness for C9: with the settings of `main`, a ball at `(0.005, 0.9)` misses the left
paddle; the score changes from `2 - 3` to `2 - 4`, the ball is served from `x = 0.93`. -/
theorem score_event_resets_witness :
    (perform_ball_collisions ⟨Real.cos, Real.sin, Real.sqrt, Real.pi⟩ (left_miss_game : Game ℝ)
      (default_settings 800 600)).score ≠ (left_miss_game : Game ℝ).score ∧
    (perform_ball_collisions ⟨Real.cos, Real.sin, Real.sqrt, Real.pi⟩ (left_miss_game : Game ℝ)
      (default_settings 800 600)).paddles.first = ⟨1 / 5, 1 / 2 - 1 / 5 / 2, 0⟩ := by
  have hs : (perform_ball_collisions ⟨Real.cos, Real.sin, Real.sqrt, Real.pi⟩
      (left_miss_game : Game ℝ) (default_settings 800 600)).score ≠
      (left_miss_game : Game ℝ).score := by
    norm_num [perform_ball_collisions, score_check, paddle_collision, wall_collision,
      right_bounce, left_bounce, left_win, right_win, bounce_buffer, left_miss_game,
      default_settings, reset_game]
  exact ⟨hs, (score_event_resets _ left_miss_game (default_settings 800 600) hs).1⟩

/-- C10: one `loop_game` frame leaves the score unchanged, or increases `left` by exactly 1
with `right` unchanged, or increases `right` by exactly 1 with `left` unchanged (scores are
unbounded integers). -/
theorem score_monotone {F : Type} [LinearOrderedField F] (M : Libm F) (keys : Keys)
    (g : Game F) (dt : F) (settings : Settings F) :
    (loop_game M keys g dt settings).score = g.score ∨
    ((loop_game M keys g dt settings).score.left = g.score.left + 1 ∧
      (loop_game M keys g dt settings).score.right = g.score.right) ∨
    ((loop_game M keys g dt settings).score.right = g.score.right + 1 ∧
      (loop_game M keys g dt settings).score.left = g.score.left) := by
  obtain ⟨g1, hg1, heq⟩ := loop_game_eq M keys g dt settings
  rw [heq, ← hg1]
  rcases perform_ball_collisions_cases M g1 settings with h0 | h1 | h2
  · exact Or.inl h0
  · right; left
    rw [h1]
    simp [reset_game]
  · right; right
    rw [h2]
    simp [reset_game]

/-! ## Ball position after a frame (C11) and bounce frames (C15) -/

section BallPosition

variable {F : Type} [LinearOrderedField F]

/-- Vertical position of the ball after the wall step. -/
theorem wall_collision_y (M : Libm F) (g : Game F) :
    (wall_collision M g).ball.position.y =
      if g.ball.position.y + g.ball.radius > 1 then 1 - g.ball.radius
      else if g.ball.position.y - g.ball.radius < 0 then g.ball.radius
      else g.ball.position.y := by
  unfold wall_collision
  split_ifs <;> simp_all [Game.setBallY, Game.setBallVelocity]

/-- The paddle step keeps the vertical position of the ball. -/
theorem paddle_collision_y (M : Libm F) (g : Game F) (s : Settings F) :
    (paddle_collision M g s).ball.position.y = g.ball.position.y := by
  unfold paddle_collision
  split_ifs <;> simp [Game.setBallX, Game.setBallVelocity]

/-- The frame step hands `perform_ball_collisions` a game whose ball has the radius
it received. -/
theorem loop_game_eq_radius (M : Libm F) (keys : Keys) (g : Game F) (dt : F) (s : Settings F) :
    ∃ g1 : Game F, g1.ball.radius = g.ball.radius ∧
      loop_game M keys g dt s = perform_ball_collisions M g1 s :=
  ⟨_, by simp [handle_keypress, integrate_ball], rfl⟩

/-- Bounds on the ball position after `perform_ball_collisions`. -/
theorem perform_ball_collisions_bounds (M : Libm F) (g : Game F) (s : Settings F)
    (hr : g.ball.radius = s.ball_radius) (h0 : 0 ≤ s.ball_radius) (h1 : s.ball_radius ≤ 1 / 2)
    (ho0 : 0 ≤ s.ball_radius + s.margin_h + s.paddle_width)
    (ho1 : s.ball_radius + s.margin_h + s.paddle_width ≤ 1) :
    0 ≤ (perform_ball_collisions M g s).ball.position.x ∧
    (perform_ball_collisions M g s).ball.position.x ≤ 1 ∧
    s.ball_radius ≤ (perform_ball_collisions M g s).ball.position.y ∧
    (perform_ball_collisions M g s).ball.position.y ≤ 1 - s.ball_radius := by
  have hrad : (paddle_collision M (wall_collision M g) s).ball.radius = s.ball_radius := by
    rw [paddle_collision_radius, (wall_collision_frame M g).2.1, hr]
  have hy : s.ball_radius ≤ (paddle_collision M (wall_collision M g) s).ball.position.y ∧
      (paddle_collision M (wall_collision M g) s).ball.position.y ≤ 1 - s.ball_radius := by
    rw [paddle_collision_y, wall_collision_y, hr]
    split_ifs with ha hb
    · constructor <;> linarith
    · constructor <;> linarith
    · constructor <;> linarith
  unfold perform_ball_collisions score_check
  rw [hrad]
  split_ifs with ha hb
  · simp only [reset_game, if_true]
    refine ⟨by linarith, by linarith, by linarith, by linarith⟩
  · simp only [reset_game, Bool.false_eq_true, if_false]
    refine ⟨by linarith, by linarith, by linarith, by linarith⟩
  · refine ⟨by linarith, by linarith, hy.1, hy.2⟩

end BallPosition

/-- C11: for every game state and settings with `ball.radius = ball_radius = r`,
`0 <= r <= 1/2` and `0 <= ball_radius + margin_h + paddle_width <= 1`, after one `loop_game`
frame with any `dt` and any keys the ball position satisfies `0 <= x <= 1` and
`r <= y <= 1 - r`. -/
theorem ball_stays_in_field {F : Type} [LinearOrderedField F] (M : Libm F) (keys : Keys)
    (g : Game F) (dt : F) (settings : Settings F)
    (hr : g.ball.radius = settings.ball_radius) (h0 : 0 ≤ settings.ball_radius)
    (h1 : settings.ball_radius ≤ 1 / 2)
    (ho0 : 0 ≤ settings.ball_radius + settings.margin_h + settings.paddle_width)
    (ho1 : settings.ball_radius + settings.margin_h + settings.paddle_width ≤ 1) :
    0 ≤ (loop_game M keys g dt settings).ball.position.x ∧
    (loop_game M keys g dt settings).ball.position.x ≤ 1 ∧
    settings.ball_radius ≤ (loop_game M keys g dt settings).ball.position.y ∧
    (loop_game M keys g dt settings).ball.position.y ≤ 1 - settings.ball_radius := by
  obtain ⟨g1, hg1, heq⟩ := loop_game_eq_radius M keys g dt settings
  rw [heq]
  exact perform_ball_collisions_bounds M g1 settings (hg1.trans hr) h0 h1 ho0 ho1

/-- Witness for C11: the settings of `main` and a ball far outside the field, at `(7, -3)`
with velocity `(50, -20)`, one frame of a quarter of a second with no key pressed. -/
theorem ball_stays_in_field_witness :
    0 ≤ (loop_game ⟨Real.cos, Real.sin, Real.sqrt, Real.pi⟩ no_keys
      ⟨⟨⟨1 / 5, 2 / 5, 0⟩, ⟨1 / 5, 2 / 5, 0⟩⟩, ⟨1 / 100, ⟨7, -3⟩, ⟨50, -20⟩⟩, ⟨0, 0⟩⟩ (1 / 4)
      (default_settings 800 600 : Settings ℝ)).ball.position.x ∧
    (loop_game ⟨Real.cos, Real.sin, Real.sqrt, Real.pi⟩ no_keys
      ⟨⟨⟨1 / 5, 2 / 5, 0⟩, ⟨1 / 5, 2 / 5, 0⟩⟩, ⟨1 / 100, ⟨7, -3⟩, ⟨50, -20⟩⟩, ⟨0, 0⟩⟩ (1 / 4)
      (default_settings 800 600 : Settings ℝ)).ball.position.x ≤ 1 :=
  have h := ball_stays_in_field ⟨Real.cos, Real.sin, Real.sqrt, Real.pi⟩ no_keys
    ⟨⟨⟨1 / 5, 2 / 5, 0⟩, ⟨1 / 5, 2 / 5, 0⟩⟩, ⟨1 / 100, ⟨7, -3⟩, ⟨50, -20⟩⟩, ⟨0, 0⟩⟩ (1 / 4)
    (default_settings 800 600 : Settings ℝ) (by norm_num [default_settings])
    (by norm_num [default_settings]) (by norm_num [default_settings])
    (by norm_num [default_settings]) (by norm_num [default_settings])
  ⟨h.1, h.2.1⟩

/-- C15: with `paddle_width > 0` and `paddle_width + 2 * ball.radius < 1`, if
`perform_ball_collisions` takes either paddle-bounce branch (the guards are evaluated on the
state after the wall step), then neither scoring test fires: the result is the state after
the bounce, the score is unchanged, and `ball.x` is the clamped paddle-plane value. -/
theorem bounce_frame_never_scores {F : Type} [LinearOrderedField F] (M : Libm F) (g : Game F)
    (settings : Settings F) (hw : 0 < settings.paddle_width)
    (hfit : settings.paddle_width + 2 * g.ball.radius < 1)
    (hb : right_bounce (wall_collision M g) settings = true ∨
      left_bounce (wall_collision M g) settings = true) :
    perform_ball_collisions M g settings = paddle_collision M (wall_collision M g) settings ∧
    (perform_ball_collisions M g settings).score = g.score ∧
    (perform_ball_collisions M g settings).ball.position.x =
      (if right_bounce (wall_collision M g) settings = true
        then 1 - settings.paddle_width - g.ball.radius
        else settings.paddle_width + g.ball.radius) := by
  obtain ⟨-, hwr, -⟩ := wall_collision_frame M g
  have hx : (paddle_collision M (wall_collision M g) settings).ball.position.x =
      (if right_bounce (wall_collision M g) settings = true
        then 1 - settings.paddle_width - g.ball.radius
        else settings.paddle_width + g.ball.radius) := by
    rw [paddle_collision_x, hwr]
    rcases hb with hb | hb
    · simp [hb]
    · simp [hb]
  have hrad : (paddle_collision M (wall_collision M g) settings).ball.radius = g.ball.radius := by
    rw [paddle_collision_radius, hwr]
  have hres : perform_ball_collisions M g settings =
      paddle_collision M (wall_collision M g) settings := by
    unfold perform_ball_collisions score_check
    rw [hx, hrad]
    split_ifs at * <;> first | rfl | (exfalso; linarith)
  rw [hres]
  exact ⟨rfl, by rw [paddle_collision_score, wall_collision_score], hx⟩

/-- Witness for C15: the straight-back state with the settings of `main` takes the
right-paddle bounce branch and the score stays `0 - 0`. -/
theorem bounce_frame_never_scores_witness :
    right_bounce (wall_collision ⟨Real.cos, Real.sin, Real.sqrt, Real.pi⟩
      (centre_hit_game : Game ℝ)) (default_settings 800 600) = true ∧
    (perform_ball_collisions ⟨Real.cos, Real.sin, Real.sqrt, Real.pi⟩
      (centre_hit_game : Game ℝ) (default_settings 800 600)).score = ⟨0, 0⟩ := by
  have hwc : wall_collision ⟨Real.cos, Real.sin, Real.sqrt, Real.pi⟩
      (centre_hit_game : Game ℝ) = centre_hit_game := by
    norm_num [wall_collision, centre_hit_game]
  have hb : right_bounce (wall_collision ⟨Real.cos, Real.sin, Real.sqrt, Real.pi⟩
      (centre_hit_game : Game ℝ)) (default_settings 800 600) = true := by
    rw [hwc]
    norm_num [right_bounce, left_win, centre_hit_game, default_settings, bounce_buffer]
  exact ⟨hb, (bounce_frame_never_scores _ centre_hit_game (default_settings 800 600)
    (by norm_num [default_settings]) (by norm_num [default_settings, centre_hit_game])
    (Or.inl hb)).2.1⟩

/-! ## Straight-back shot (C12) -/

/-- C12: when the paddle step takes the right-paddle bounce branch with `ball.y` equal to the
centre of the right paddle (`position + height / 2`, `height != 0`), then
`relative_isct_y = 0`, `ball.x` is set to `1 - paddle_width - radius` and the velocity becomes
exactly `(-ball_speed, 0)`; symmetrically, the left-paddle branch at the centre of the left
paddle gives `x = paddle_width + radius` and velocity `(+ball_speed, 0)`. Scenario: for the
ball at `(0.995, 0.5)` with radius `0.01` and velocity `(0.8, 0)`, paddles at rest spanning
`[0.4, 0.6]`, the settings of `main`, no key pressed and any `dt >= 0`, `loop_game` yields
velocity `(-0.8, 0)` and leaves the score unchanged. Doubles are read as reals. -/
theorem straight_back_shot (g : Game ℝ) (s : Settings ℝ) :
    (right_bounce g s = true → g.paddles.second.height ≠ 0 →
      g.ball.position.y = g.paddles.second.position + g.paddles.second.height / 2 →
      relative_isct_y g.paddles.second g.ball = 0 ∧
      (paddle_collision ⟨Real.cos, Real.sin, Real.sqrt, Real.pi⟩ g s).ball.position.x =
        1 - s.paddle_width - g.ball.radius ∧
      (paddle_collision ⟨Real.cos, Real.sin, Real.sqrt, Real.pi⟩ g s).ball.velocity =
        ⟨-s.ball_speed, 0⟩) ∧
    (left_bounce g s = true → g.paddles.first.height ≠ 0 →
      g.ball.position.y = g.paddles.first.position + g.paddles.first.height / 2 →
      relative_isct_y g.paddles.first g.ball = 0 ∧
      (paddle_collision ⟨Real.cos, Real.sin, Real.sqrt, Real.pi⟩ g s).ball.position.x =
        s.paddle_width + g.ball.radius ∧
      (paddle_collision ⟨Real.cos, Real.sin, Real.sqrt, Real.pi⟩ g s).ball.velocity =
        ⟨s.ball_speed, 0⟩) ∧
    (∀ dt : ℝ, 0 ≤ dt →
      (loop_game ⟨Real.cos, Real.sin, Real.sqrt, Real.pi⟩ no_keys (centre_hit_game : Game ℝ) dt
        (default_settings 800 600)).ball.velocity = ⟨-(4 / 5), 0⟩ ∧
      (loop_game ⟨Real.cos, Real.sin, Real.sqrt, Real.pi⟩ no_keys (centre_hit_game : Game ℝ) dt
        (default_settings 800 600)).score = (centre_hit_game : Game ℝ).score) := by
  refine ⟨?_, ?_, ?_⟩
  · intro hr _ hy
    have h0 : relative_isct_y g.paddles.second g.ball = 0 := by
      simp [relative_isct_y, hy]
    refine ⟨h0, by rw [paddle_collision_x, if_pos hr], ?_⟩
    have h0x : relative_isct_y g.paddles.second
        { g.ball with position := ⟨1 - s.paddle_width - g.ball.radius, g.ball.position.y⟩ } =
        0 := by
      simp [relative_isct_y, hy]
    simp [paddle_collision, hr, Game.setBallX, Game.setBallVelocity, toRotationMatrix,
      Matrix2d.mulVec, Vector2d.scale, h0x]
  · intro hl _ hy
    have hr : right_bounce g s = false := by
      simp only [left_bounce, Bool.and_eq_true, Bool.not_eq_true'] at hl
      exact hl.1
    have h0 : relative_isct_y g.paddles.first g.ball = 0 := by
      simp [relative_isct_y, hy]
    refine ⟨h0, by rw [paddle_collision_x, hr, if_neg (by simp), if_pos hl], ?_⟩
    have h0x : relative_isct_y g.paddles.first
        { g.ball with position := ⟨s.paddle_width + g.ball.radius, g.ball.position.y⟩ } = 0 := by
      simp [relative_isct_y, hy]
    simp [paddle_collision, hr, hl, Game.setBallX, Game.setBallVelocity, toRotationMatrix,
      Matrix2d.mulVec, Vector2d.scale, h0x]
  · intro dt hdt
    have hle : (99 : ℝ) / 100 ≤ 199 / 200 + 4 / 5 * dt + 1 / 100 := by linarith
    norm_num [hle, loop_game, perform_ball_collisions, score_check, paddle_collision, wall_collision,
      integrate_ball, handle_keypress, update_position, default_settings,
      decelerate_paddle, paddle_can_move, sign, right_bounce, left_bounce, left_win, right_win,
      bounce_buffer, Vector2d.add, Vector2d.scale, Game.setBallX, Game.setBallY,
      Game.setBallVelocity, no_keys, centre_hit_game, relative_isct_y, toRotationMatrix,
      Matrix2d.mulVec, max_bounce_angle]

/-- Witness for C12: the straight-back state takes the right-paddle bounce branch at the
paddle centre, and a frame of `1/60` s sends the ball back with velocity `(-0.8, 0)`. -/
theorem straight_back_shot_witness :
    right_bounce (centre_hit_game : Game ℝ) (default_settings 800 600) = true ∧
    (paddle_collision ⟨Real.cos, Real.sin, Real.sqrt, Real.pi⟩ (centre_hit_game : Game ℝ)
      (default_settings 800 600)).ball.velocity = ⟨-(4 / 5), 0⟩ ∧
    (loop_game ⟨Real.cos, Real.sin, Real.sqrt, Real.pi⟩ no_keys (centre_hit_game : Game ℝ)
      (1 / 60) (default_settings 800 600)).ball.velocity = ⟨-(4 / 5), 0⟩ := by
  have h := straight_back_shot centre_hit_game (default_settings 800 600)
  have hb : right_bounce (centre_hit_game : Game ℝ) (default_settings 800 600) = true := by
    norm_num [right_bounce, left_win, centre_hit_game, default_settings, bounce_buffer]
  exact ⟨hb, (h.1 hb (by norm_num [centre_hit_game]) (by norm_num [centre_hit_game])).2.2,
    (h.2.2 (1 / 60) (by norm_num)).1⟩

/-! ## Pinned paddle (C13) -/

section Pinned

variable {F : Type} [LinearOrderedField F]

/-- A paddle at position `0` that is not moving down keeps position `0` in `update_position`. -/
theorem update_position_pinned (dt : F) (s : Settings F) (p : Paddle F) (hp : p.position = 0)
    (hv : p.velocity ≤ 0) : (update_position dt s p).position = 0 := by
  unfold update_position
  rcases lt_or_eq_of_le hv with h | h
  · have hd : sign p.velocity = -1 := sign_of_neg h
    simp [hd, paddle_can_move, hp]
  · have hd : sign (0 : F) = 0 := by simp [sign]
    simp [hd, paddle_can_move, hp, h]

/-- The function `update_position` does not touch the velocity. -/
theorem update_position_velocity (dt : F) (s : Settings F) (p : Paddle F) :
    (update_position dt s p).velocity = p.velocity := by
  simp only [update_position]
  split_ifs <;> rfl

/-- Accelerating upwards keeps a non-positive velocity non-positive. -/
theorem accelerate_paddle_up_nonpos (s : Settings F) (hs : 0 ≤ s.paddle_speed) (p : Paddle F)
    (dt : F) (hdt : 0 ≤ dt) (hv : p.velocity ≤ 0) :
    (accelerate_paddle p (-1) dt s).velocity ≤ 0 := by
  unfold accelerate_paddle
  by_cases h1 : |p.velocity| = s.paddle_speed ∧ sign p.velocity = -1
  · rw [if_pos h1]
    exact hv
  · rw [if_neg h1]
    by_cases h2 : |p.velocity + ((-1 : Int) : F) * 100 * dt| < s.paddle_speed
    · simp only [h2, if_true]
      push_cast
      linarith
    · simp only [h2, if_false]
      push_cast
      linarith

end Pinned

/-- C13, counterexample: with the settings of `main`, a paddle at position `0` with velocity
`1` (moving down) and the up key held for a frame of `dt = 1/1000`: `paddle_can_move` in
direction `-1` is false, `accelerate_paddle` in direction `-1` gives velocity `0.9`, and the
position integration, which is gated on the sign of the velocity (`+1`), moves the paddle to
`0.0009`. -/
theorem pinned_paddle_counterexample :
    paddle_can_move (⟨1 / 5, 0, 1⟩ : Paddle ℚ) (-1) (default_settings 800 600) = false ∧
    (accelerate_paddle (⟨1 / 5, 0, 1⟩ : Paddle ℚ) (-1) (1 / 1000)
      (default_settings 800 600)).velocity = 9 / 10 ∧
    (update_position (1 / 1000) (default_settings 800 600)
      (accelerate_paddle (⟨1 / 5, 0, 1⟩ : Paddle ℚ) (-1) (1 / 1000)
        (default_settings 800 600))).position = 9 / 10000 ∧
    (update_position (1 / 1000) (default_settings 800 600)
      (accelerate_paddle (⟨1 / 5, 0, 1⟩ : Paddle ℚ) (-1) (1 / 1000)
        (default_settings 800 600))).position ≠ 0 := by
  have h1 : |(1 : ℚ)| = 1 := abs_one
  have h2 : |(9 / 10 : ℚ)| = 9 / 10 := abs_of_pos (by norm_num)
  have ha : accelerate_paddle (⟨1 / 5, 0, 1⟩ : Paddle ℚ) (-1) (1 / 1000)
      (default_settings 800 600) = ⟨1 / 5, 0, 9 / 10⟩ := by
    norm_num [accelerate_paddle, default_settings, sign, h1, h2]
  have hu : (update_position (1 / 1000) (default_settings 800 600)
      (⟨1 / 5, 0, 9 / 10⟩ : Paddle ℚ)).position = 9 / 10000 := by
    norm_num [update_position, paddle_can_move, sign, default_settings]
  refine ⟨by norm_num [paddle_can_move], by rw [ha], by rw [ha, hu], ?_⟩
  rw [ha, hu]
  norm_num

/-- C13, amended: for a paddle with position `0`, any velocity, the up input held and any
`dt`: `paddle_can_move` in direction `-1` is false; the input policy of `handle_keypress`
(up held, down not held) is `accelerate_paddle` in direction `-1`; after that and the position
integration of `loop_game` the velocity is the value `accelerate_paddle` produced, and the
position is still `0` whenever that velocity is `<= 0`, which is the case for every starting
velocity `<= 0` with `paddle_speed >= 0` and `dt >= 0`. -/
theorem pinned_paddle {F : Type} [LinearOrderedField F] (p : Paddle F) (dt : F)
    (settings : Settings F) (hp : p.position = 0) :
    paddle_can_move p (-1) settings = false ∧
    (∀ (keys : Keys) (g : Game F), keys.LeftDown = false → keys.LeftUp = true →
      g.paddles.first = p →
      (handle_keypress keys g dt settings).paddles.first = accelerate_paddle p (-1) dt settings) ∧
    (update_position dt settings (accelerate_paddle p (-1) dt settings)).velocity =
      (accelerate_paddle p (-1) dt settings).velocity ∧
    ((accelerate_paddle p (-1) dt settings).velocity ≤ 0 →
      (update_position dt settings (accelerate_paddle p (-1) dt settings)).position = 0) ∧
    (p.velocity ≤ 0 → 0 ≤ settings.paddle_speed → 0 ≤ dt →
      (accelerate_paddle p (-1) dt settings).velocity ≤ 0) := by
  refine ⟨by simp [paddle_can_move, hp], ?_, update_position_velocity _ _ _, ?_, ?_⟩
  · intro keys g hd hu hg
    simp [handle_keypress, hd, hu, hg]
  · intro hv
    apply update_position_pinned _ _ _ _ hv
    unfold accelerate_paddle
    split_ifs <;> exact hp
  · intro hv hs hdt
    exact accelerate_paddle_up_nonpos settings hs p dt hdt hv

/-- Witness for C13 (amended): a paddle pinned at `0` moving up at full speed, up held for
`1/60` s with the settings of `main`. -/
theorem pinned_paddle_witness :
    (update_position (1 / 60) (default_settings 800 600)
      (accelerate_paddle (⟨1 / 5, 0, -(7 / 4)⟩ : Paddle ℚ) (-1) (1 / 60)
        (default_settings 800 600))).position = 0 ∧
    (handle_keypress left_up_keys
      (⟨⟨⟨1 / 5, 0, -(7 / 4)⟩, ⟨1 / 5, 2 / 5, 0⟩⟩, ⟨1 / 100, ⟨1 / 2, 1 / 2⟩, ⟨4 / 5, 0⟩⟩, ⟨0, 0⟩⟩ :
        Game ℚ) (1 / 60) (default_settings 800 600)).paddles.first =
      accelerate_paddle ⟨1 / 5, 0, -(7 / 4)⟩ (-1) (1 / 60) (default_settings 800 600) :=
  have h := pinned_paddle (⟨1 / 5, 0, -(7 / 4)⟩ : Paddle ℚ) (1 / 60) (default_settings 800 600)
    rfl
  ⟨h.2.2.2.1 (h.2.2.2.2 (by norm_num) (by norm_num [default_settings]) (by norm_num)),
    h.2.1 left_up_keys _ rfl rfl rfl⟩

/-! ## Acceleration as a clamp (C14) -/

section AccelerateClamp

variable {F : Type} [LinearOrderedField F]

/-- For a strictly positive time step, `accelerate_paddle` is the clamped linear
acceleration. -/
theorem accelerate_paddle_eq_clamp (s : Settings F) (d : Int) (hd : d = -1 ∨ d = 1)
    (p : Paddle F) (dt : F) (hdt : 0 < dt) (hv : |p.velocity| ≤ s.paddle_speed) :
    (accelerate_paddle p d dt s).velocity =
      clamp (p.velocity + (d : F) * 100 * dt) (-s.paddle_speed) s.paddle_speed := by
  obtain ⟨hlo, hhi⟩ := abs_le.mp hv
  unfold accelerate_paddle clamp
  by_cases h1 : |p.velocity| = s.paddle_speed ∧ sign p.velocity = d
  · rw [if_pos h1]
    obtain ⟨ha, hsg⟩ := h1
    rcases hd with rfl | rfl
    · have hneg : p.velocity < 0 := by
        by_contra hc
        rcases lt_or_eq_of_le (not_lt.mp hc) with hpos | hz
        · rw [sign_of_pos hpos] at hsg
          omega
        · have : sign p.velocity = 0 := by simp [sign, ← hz]
          omega
      rw [abs_of_neg hneg] at ha
      push_cast
      rw [min_eq_left (by linarith), max_eq_left (by linarith)]
      linarith
    · have hpos : 0 < p.velocity := by
        by_contra hc
        rcases lt_or_eq_of_le (not_lt.mp hc) with hneg | hz
        · rw [sign_of_neg hneg] at hsg
          omega
        · have : sign p.velocity = 0 := by simp [sign, hz]
          omega
      rw [abs_of_pos hpos] at ha
      push_cast
      rw [min_eq_right (by linarith), max_eq_right (by linarith)]
      exact ha
  · rw [if_neg h1]
    by_cases h2 : |p.velocity + (d : F) * 100 * dt| < s.paddle_speed
    · simp only [h2, if_true]
      obtain ⟨h2lo, h2hi⟩ := abs_lt.mp h2
      rw [min_eq_left h2hi.le, max_eq_right h2lo.le]
    · simp only [h2, if_false]
      rw [abs_lt, not_and_or, not_lt, not_lt] at h2
      rcases hd with rfl | rfl
      · push_cast at h2 ⊢
        have hle : p.velocity + -1 * 100 * dt ≤ -s.paddle_speed := by
          rcases h2 with h | h
          · exact h
          · linarith
        rw [min_eq_left (by linarith), max_eq_left hle]
        ring
      · push_cast at h2 ⊢
        have hge : s.paddle_speed ≤ p.velocity + 1 * 100 * dt := by
          rcases h2 with h | h
          · linarith
          · exact h
        rw [min_eq_right hge, max_eq_right (by linarith)]
        ring

end AccelerateClamp

/-- C14, the code at the failing input: with the settings of `main`, a paddle moving up at
full speed (`velocity = -1.75`), direction `+1` and `dt = 0`: the clamped linear acceleration
is `clamp (-1.75 + 1 * 100 * 0) (-1.75) 1.75 = -1.75`, but `accelerate_paddle` finds
`|new_velocity| < paddle_speed` false and assigns `paddle_speed * direction = +1.75`. -/
theorem accelerate_paddle_jump :
    |(⟨1 / 5, 2 / 5, -(7 / 4)⟩ : Paddle ℚ).velocity| ≤
      (default_settings 800 600 : Settings ℚ).paddle_speed ∧
    (accelerate_paddle (⟨1 / 5, 2 / 5, -(7 / 4)⟩ : Paddle ℚ) 1 0
      (default_settings 800 600)).velocity = 7 / 4 ∧
    clamp ((⟨1 / 5, 2 / 5, -(7 / 4)⟩ : Paddle ℚ).velocity + ((1 : Int) : ℚ) * 100 * 0)
      (-(default_settings 800 600 : Settings ℚ).paddle_speed)
      (default_settings 800 600 : Settings ℚ).paddle_speed = -(7 / 4) := by
  have ha : |(7 / 4 : ℚ)| = 7 / 4 := abs_of_pos (by norm_num)
  refine ⟨by norm_num [default_settings, ha], ?_, ?_⟩
  · norm_num [accelerate_paddle, default_settings, sign, ha]
  · norm_num [clamp, default_settings]

/-! ## Deceleration over split frames (C16) and order of the frame step (C17) -/

section SplitFrames

variable {F : Type} [LinearOrderedField F]

/-- The sign of a positive multiple of `sign v` is `sign v`. -/
theorem sign_pos_mul_sign (a v : F) (ha : 0 < a) : sign (a * ((sign v : Int) : F)) = sign v := by
  rcases lt_trichotomy v 0 with h | h | h
  · rw [sign_of_neg h]
    apply sign_of_neg
    push_cast
    linarith
  · simp [h, sign]
  · rw [sign_of_pos h]
    apply sign_of_pos
    push_cast
    linarith

/-- Velocity after one `decelerate_paddle` call, whatever the starting velocity. -/
theorem decelerate_paddle_velocity (p : Paddle F) (dt : F) :
    (decelerate_paddle p dt).velocity =
      max 0 (|p.velocity| - 100 * dt) * ((sign p.velocity : Int) : F) := by
  unfold decelerate_paddle
  split_ifs with h
  · simp [h, sign]
  · rfl

/-- The function `decelerate_paddle` only touches the velocity. -/
theorem decelerate_paddle_frame (p : Paddle F) (dt : F) :
    (decelerate_paddle p dt).height = p.height ∧
    (decelerate_paddle p dt).position = p.position := by
  unfold decelerate_paddle
  split_ifs <;> exact ⟨rfl, rfl⟩

end SplitFrames

/-- C16: for every paddle and every `dt1, dt2 >= 0`, `decelerate_paddle` with `dt1` followed by
`decelerate_paddle` with `dt2` gives the same paddle, in particular the same velocity, as a
single `decelerate_paddle` with `dt1 + dt2`. -/
theorem decelerate_split {F : Type} [LinearOrderedField F] (p : Paddle F) (dt1 dt2 : F)
    (h1 : 0 ≤ dt1) (h2 : 0 ≤ dt2) :
    (decelerate_paddle (decelerate_paddle p dt1) dt2).velocity =
      (decelerate_paddle p (dt1 + dt2)).velocity ∧
    decelerate_paddle (decelerate_paddle p dt1) dt2 = decelerate_paddle p (dt1 + dt2) := by
  have hvel : (decelerate_paddle (decelerate_paddle p dt1) dt2).velocity =
      (decelerate_paddle p (dt1 + dt2)).velocity := by
    rw [decelerate_paddle_velocity _ dt2, decelerate_paddle_velocity p (dt1 + dt2),
      decelerate_paddle_velocity p dt1]
    rcases le_or_lt (|p.velocity| - 100 * dt1) 0 with ha | ha
    · rw [max_eq_left ha, max_eq_left (by linarith : |p.velocity| - 100 * (dt1 + dt2) ≤ 0)]
      have hz : max 0 (|(0 : F) * ((sign p.velocity : Int) : F)| - 100 * dt2) = 0 := by
        rw [zero_mul, abs_zero]
        exact max_eq_left (by linarith)
      rw [hz]
      simp
    · rw [max_eq_right ha.le]
      have hv : p.velocity ≠ 0 := by
        intro hz
        rw [hz, abs_zero] at ha
        linarith
      rw [sign_pos_mul_sign _ _ ha, abs_mul, abs_sign_cast _ hv, mul_one, abs_of_pos ha]
      congr 2
      ring
  refine ⟨hvel, ?_⟩
  obtain ⟨hh, hp⟩ := decelerate_paddle_frame (decelerate_paddle p dt1) dt2
  obtain ⟨hh1, hp1⟩ := decelerate_paddle_frame p dt1
  obtain ⟨hh2, hp2⟩ := decelerate_paddle_frame p (dt1 + dt2)
  cases hq : decelerate_paddle (decelerate_paddle p dt1) dt2
  cases hq2 : decelerate_paddle p (dt1 + dt2)
  rw [hq] at hh hp hvel
  rw [hq2] at hh2 hp2 hvel
  simp only at hh hp hvel hh2 hp2
  rw [hh, hp, hvel, hh1, hp1, hh2, hp2]

/-- Witness for C16: from velocity `-1.75`, a frame of `1/100` s and then one of `1/200` s,
against a single frame of `3/200` s: both leave velocity `-0.25`. -/
theorem decelerate_split_witness :
    (decelerate_paddle (decelerate_paddle (⟨1 / 5, 2 / 5, -(7 / 4)⟩ : Paddle ℚ) (1 / 100))
      (1 / 200)).velocity =
      (decelerate_paddle (⟨1 / 5, 2 / 5, -(7 / 4)⟩ : Paddle ℚ) (1 / 100 + 1 / 200)).velocity ∧
    (decelerate_paddle (⟨1 / 5, 2 / 5, -(7 / 4)⟩ : Paddle ℚ) (1 / 100 + 1 / 200)).velocity =
      -(1 / 4) := by
  refine ⟨(decelerate_split _ (1 / 100) (1 / 200) (by norm_num) (by norm_num)).1, ?_⟩
  have ha : |(7 / 4 : ℚ)| = 7 / 4 := abs_of_pos (by norm_num)
  have hm : max (0 : ℚ) (1 / 4) = 1 / 4 := max_eq_right (by norm_num)
  norm_num [decelerate_paddle, sign, ha, hm]

/-- C17: for every game state, settings, `dt` and keys, the frame computed in the order of
`loop_game` (ball integration, input policy, paddle position integration,
`perform_ball_collisions`) equals the frame computed with the paddle update first (input
policy, paddle position integration, ball integration, `perform_ball_collisions`). -/
theorem ball_integration_commutes {F : Type} [LinearOrderedField F] (M : Libm F) (keys : Keys)
    (g : Game F) (dt : F) (settings : Settings F) :
    loop_game M keys g dt settings = loop_game_paddles_first M keys g dt settings := by
  unfold loop_game loop_game_paddles_first
  simp only [integrate_ball, handle_keypress]

end Pong
